import Mathlib

/-!
Verification of the elimination particle simulation in `src/main.cpp`.

The per-frame simulation core (particle store, collision detection,
elimination, motion integration with boundary reflection, sudden-death
escalation, win latch, and vertex-buffer synchronization) is embedded
shallowly: `float` arithmetic is read as exact rational arithmetic, the
mutable globals become an explicit `SimState`, the per-collision random
draw becomes an external stream `draws : Nat → Rat`, and the nested
index-mutating collision loops become fuel-indexed structural recursion
whose fuel bounds the number of loop-guard checks (the guards themselves
terminate the loops exactly as in the source).
-/

namespace ParticleSim

/-- Rational 3-vector modelling `glm::vec3` (components read exactly). -/
structure Vec3 where
  x : ℚ
  y : ℚ
  z : ℚ
deriving DecidableEq

/-- Componentwise vector addition, modelling `glm` vector `+=`. -/
def Vec3.add (a b : Vec3) : Vec3 := ⟨a.x + b.x, a.y + b.y, a.z + b.z⟩

/-- Scalar multiple of a vector, modelling `glm` `vec * scalar`. -/
def Vec3.smul (c : ℚ) (a : Vec3) : Vec3 := ⟨c * a.x, c * a.y, c * a.z⟩

/-- Rational 4-vector modelling `glm::vec4` (used for `backgroundColor`). -/
structure Vec4 where
  r : ℚ
  g : ℚ
  b : ℚ
  a : ℚ
deriving DecidableEq

/-- The `Particle` struct of `main.cpp`. -/
structure Particle where
  position : Vec3
  color : Vec3
  shape : ℤ
  lifespan : ℚ
  velocity : Vec3
  acceleration : Vec3
deriving DecidableEq

instance : Inhabited Vec3 := ⟨⟨0, 0, 0⟩⟩

instance : Inhabited Particle := ⟨⟨default, default, 0, 0, default, default⟩⟩

/-- Global `leftWall = -2.7f`. -/
def leftWall : ℚ := -27/10

/-- Global `rightWall = 2.7f`. -/
def rightWall : ℚ := 27/10

/-- Global `topWall = 2.0f`. -/
def topWall : ℚ := 2

/-- Global `bottomWall = -2.0f`. -/
def bottomWall : ℚ := -2

/-- The overloaded `Particle::operator==`: compares `position` and `color`
only (the other comparisons are commented out in the source). -/
def particleEq (a b : Particle) : Bool :=
  decide (a.position = b.position) && decide (a.color = b.color)

/-- Squared Euclidean distance between two points, the radicand of
`glm::distance`. -/
def distSq (p q : Vec3) : ℚ :=
  (p.x - q.x) ^ 2 + (p.y - q.y) ^ 2 + (p.z - q.z) ^ 2

/-- The function `checkCollision`: `glm::distance(p1.position, p2.position)
< particleSizeValue / initialCollide`.  Since the distance is the
nonnegative square root of `distSq`, the comparison `sqrt d < t` is
equivalent to `0 < t ∧ d < t ^ 2`, which is the executable rational test
used here; the equivalence with the literal square-root formulation is
proved below (claim C7). -/
def checkCollision (sz cd : ℚ) (p1 p2 : Particle) : Bool :=
  decide (0 < sz / cd ∧ distSq p1.position p2.position < (sz / cd) ^ 2)

/-- The function `removeParticle`: `std::find` locates the first element
comparing equal (via `Particle::operator==`) to the target, and that
element is erased; if none is found the store is unchanged. -/
def removeParticle (ps : List Particle) (tgt : Particle) : List Particle :=
  ps.eraseP (fun q => particleEq q tgt)

/-- The function `handleCollision`: draw a random number `r` in `[0,1]`
(`rand() / RAND_MAX`, reseeded from the clock, hence modelled as an
external input); if `r == 0` remove the second particle, otherwise remove
the first. -/
def handleCollision (r : ℚ) (p1 p2 : Particle) (ps : List Particle) :
    List Particle :=
  if r = 0 then removeParticle ps p2 else removeParticle ps p1

/-- Inner collision loop `for (int j = i + 1; j < particles.size(); ++j)`,
with the store mutated in place by `handleCollision` exactly as in the
source (the size is re-read every iteration).  `k` counts random draws
consumed so far; the fuel only bounds the number of guard checks. -/
def collideInner (sz cd : ℚ) (draws : ℕ → ℚ) :
    ℕ → ℕ → ℕ → ℕ → List Particle → List Particle × ℕ
  | 0, k, _, _, ps => (ps, k)
  | fuel + 1, k, i, j, ps =>
    if j < ps.length then
      let p1 := ps.getD i default
      let p2 := ps.getD j default
      if checkCollision sz cd p1 p2 then
        collideInner sz cd draws fuel (k + 1) i (j + 1)
          (handleCollision (draws k) p1 p2 ps)
      else
        collideInner sz cd draws fuel k i (j + 1) ps
    else (ps, k)

/-- Outer collision loop `for (int i = 0; i < particles.size(); i++)`. -/
def collideOuter (sz cd : ℚ) (draws : ℕ → ℚ) :
    ℕ → ℕ → ℕ → List Particle → List Particle × ℕ
  | 0, k, _, ps => (ps, k)
  | fuel + 1, k, i, ps =>
    if i < ps.length then
      let r := collideInner sz cd draws (ps.length + 1) k i (i + 1) ps
      collideOuter sz cd draws fuel r.2 (i + 1) r.1
    else (ps, k)

/-- The collision-detection-and-handling phase of `updateParticles`.  The
store size never grows, so `length + 1` units of fuel always outlast both
loop guards. -/
def collisionPhase (sz cd : ℚ) (draws : ℕ → ℚ) (ps : List Particle) :
    List Particle :=
  (collideOuter sz cd draws (ps.length + 1) 0 0 ps).1

/-- Boundary reflection in `updateParticles`: negate `velocity.x` when
`position.x <= leftWall || position.x >= rightWall`, and `velocity.y`
when `position.y <= bottomWall || position.y >= topWall`. -/
def reflect (p : Particle) : Particle :=
  let vx := if p.position.x ≤ leftWall ∨ rightWall ≤ p.position.x
    then -p.velocity.x else p.velocity.x
  let vy := if p.position.y ≤ bottomWall ∨ topWall ≤ p.position.y
    then -p.velocity.y else p.velocity.y
  { p with velocity := ⟨vx, vy, p.velocity.z⟩ }

/-- The kinematic update in `updateParticles`:
`velocity += acceleration * (deltaTime * 2.0f)` and then
`position += velocity * deltaTime` (the freshly updated velocity). -/
def kinematics (dt : ℚ) (p : Particle) : Particle :=
  let v := Vec3.add p.velocity (Vec3.smul (dt * 2) p.acceleration)
  { p with velocity := v, position := Vec3.add p.position (Vec3.smul dt v) }

/-- One particle's full movement update: reflection, then kinematics. -/
def moveParticle (dt : ℚ) (p : Particle) : Particle :=
  kinematics dt (reflect p)

/-- Writing one particle's six floats into the flat buffer:
`vertexData[6 i .. 6 i + 5] = (position.xyz, color.rgb)`. -/
def writeParticle (buf : List ℚ) (i : ℕ) (p : Particle) : List ℚ :=
  ((((((buf.set (6 * i) p.position.x).set (6 * i + 1) p.position.y).set
      (6 * i + 2) p.position.z).set (6 * i + 3) p.color.x).set
      (6 * i + 4) p.color.y).set (6 * i + 5) p.color.z)

/-- The vertex-data loop of `updateParticles`, writing particle `i` at
slot `6 * i`; the buffer itself is never resized. -/
def updateVertexDataFrom : List ℚ → ℕ → List Particle → List ℚ
  | buf, _, [] => buf
  | buf, i, p :: ps => updateVertexDataFrom (writeParticle buf i p) (i + 1) ps

/-- Buffer synchronization as performed by `updateParticles`. -/
def updateVertexData (buf : List ℚ) (ps : List Particle) : List ℚ :=
  updateVertexDataFrom buf 0 ps

/-- The SUDDEN DEATH block of `updateParticles`: when
`particles.size() <= NUM_PARTICLES/10 || particles.size() <= 5`, add
`0.005` to both `particleSizeValue` and `initialCollide`. -/
def escalate (n : ℕ) (size : ℕ) (sz cd : ℚ) : ℚ × ℚ :=
  if size ≤ n / 10 ∨ size ≤ 5 then (sz + 1/200, cd + 1/200) else (sz, cd)

/-- The mutable globals of `main.cpp` that the simulation core reads and
writes, gathered into one state record. -/
structure SimState where
  particles : List Particle
  vertexData : List ℚ
  particleSizeValue : ℚ
  initialCollide : ℚ
  backgroundColor : Vec4
  winnerFound : Bool
  numParticles : ℕ
deriving DecidableEq

/-- The function `updateParticles(deltaTime)`: collision phase, movement
loop, vertex-data write-back, sudden-death escalation. -/
def updateParticles (dt : ℚ) (draws : ℕ → ℚ) (s : SimState) : SimState :=
  let ps1 := collisionPhase s.particleSizeValue s.initialCollide draws
    s.particles
  let ps2 := ps1.map (moveParticle dt)
  let buf := updateVertexData s.vertexData ps2
  let e := escalate s.numParticles ps2.length s.particleSizeValue
    s.initialCollide
  { s with
    particles := ps2
    vertexData := buf
    particleSizeValue := e.1
    initialCollide := e.2 }

/-- The function `winCheck`: when exactly one particle remains, take its
color (`particles.back().color`), print the winner report unless
`winnerFound` is already set, assign `backgroundColor` to the color at
full opacity, and latch `winnerFound`.  The returned boolean records
whether the textual report was emitted on this call. -/
def winCheck (s : SimState) : SimState × Bool :=
  if s.particles.length = 1 then
    let c := (s.particles.getLastD default).color
    ({ s with backgroundColor := ⟨c.x, c.y, c.z, 1⟩, winnerFound := true },
      !s.winnerFound)
  else (s, false)

/-- Running several frame updates (`updateParticles` only), one per
element of the list of (delta, draw-stream) inputs. -/
def runUpdates : List (ℚ × (ℕ → ℚ)) → SimState → SimState
  | [], s => s
  | f :: fs, s => runUpdates fs (updateParticles f.1 f.2 s)

/-- One iteration of the main loop's simulation-visible part:
`updateParticles(deltaTime)` followed by `winCheck()`. -/
def frameStep (f : ℚ × (ℕ → ℚ)) (s : SimState) : SimState × Bool :=
  winCheck (updateParticles f.1 f.2 s)

/-- Running several full frames, counting how many of them emitted the
textual winner report. -/
def runFrames : List (ℚ × (ℕ → ℚ)) → SimState → SimState × ℕ
  | [], s => (s, 0)
  | f :: fs, s =>
    let r := frameStep f s
    let rest := runFrames fs r.1
    (rest.1, (if r.2 then 1 else 0) + rest.2)

/-- Flattening the spawned particles into the initial vertex data, as the
initialization loop in `VertexSpecification` does (six pushes per
particle). -/
def flattenParticles (ps : List Particle) : List ℚ :=
  (ps.map (fun p =>
    [p.position.x, p.position.y, p.position.z,
     p.color.x, p.color.y, p.color.z])).flatten

/-- The simulation state right after `VertexSpecification` spawned the
given list of `NUM_PARTICLES` particles: `particleSizeValue = 10.0f`,
`initialCollide = 100`, black background, no winner yet. -/
def initState (ps : List Particle) : SimState :=
  ⟨ps, flattenParticles ps, 10, 100, ⟨0, 0, 0, 1⟩, false, ps.length⟩

/-- Color of the sole survivor (`particles.back()`), as read by
`winCheck`. -/
def survivorColor (s : SimState) : Vec3 :=
  (s.particles.getLastD default).color

/-- Sample particle at the origin with red color and zero motion. -/
def wA : Particle := ⟨⟨0, 0, 0⟩, ⟨1, 0, 0⟩, 0, 1, ⟨0, 0, 0⟩, ⟨0, 0, 0⟩⟩

/-- Sample particle at distance `0.01` from `wA`, green, zero motion. -/
def cpB : Particle := ⟨⟨1/100, 0, 0⟩, ⟨0, 1, 0⟩, 0, 1, ⟨0, 0, 0⟩, ⟨0, 0, 0⟩⟩

/-- Sample particle equal to `dupB` on position and color but with a
different velocity. -/
def dupA : Particle := ⟨⟨0, 0, 0⟩, ⟨1, 0, 0⟩, 0, 1, ⟨1, 0, 0⟩, ⟨0, 0, 0⟩⟩

/-- Sample particle field-equal (position, color) to `dupA` with another
velocity. -/
def dupB : Particle := ⟨⟨0, 0, 0⟩, ⟨1, 0, 0⟩, 0, 1, ⟨2, 0, 0⟩, ⟨0, 0, 0⟩⟩

/-- Sample particle with a purely upward unit acceleration. -/
def ctrP : Particle := ⟨⟨0, 0, 0⟩, ⟨0, 0, 1⟩, 0, 1, ⟨0, 0, 0⟩, ⟨0, 1, 0⟩⟩

/-- Sample particle sitting exactly on the right wall, moving right, with
the spawn-time acceleration `(0, -0.05, 0)`. -/
def wallP : Particle :=
  ⟨⟨27/10, 0, 0⟩, ⟨0, 0, 1⟩, 0, 1, ⟨1, 0, 0⟩, ⟨0, -1/20, 0⟩⟩

theorem removeParticle_length_le (ps : List Particle) (tgt : Particle) :
    (removeParticle ps tgt).length ≤ ps.length :=
  List.length_eraseP_le ps

theorem handleCollision_length_le (r : ℚ) (p1 p2 : Particle)
    (ps : List Particle) : (handleCollision r p1 p2 ps).length ≤ ps.length := by
  unfold handleCollision
  split
  · exact removeParticle_length_le ps p2
  · exact removeParticle_length_le ps p1

theorem collideInner_length_le (sz cd : ℚ) (draws : ℕ → ℚ) :
    ∀ fuel k i j ps,
      ((collideInner sz cd draws fuel k i j ps).1).length ≤ ps.length := by
  intro fuel
  induction fuel with
  | zero => intro k i j ps; exact le_refl _
  | succ n ih =>
    intro k i j ps
    simp only [collideInner]
    split
    · split
      · exact le_trans (ih _ _ _ _) (handleCollision_length_le _ _ _ _)
      · exact ih _ _ _ _
    · exact le_refl _

theorem collideOuter_length_le (sz cd : ℚ) (draws : ℕ → ℚ) :
    ∀ fuel k i ps,
      ((collideOuter sz cd draws fuel k i ps).1).length ≤ ps.length := by
  intro fuel
  induction fuel with
  | zero => intro k i ps; exact le_refl _
  | succ n ih =>
    intro k i ps
    simp only [collideOuter]
    split
    · exact le_trans (ih _ _ _) (collideInner_length_le sz cd draws _ _ _ _ _)
    · exact le_refl _

theorem collisionPhase_length_le (sz cd : ℚ) (draws : ℕ → ℚ)
    (ps : List Particle) : (collisionPhase sz cd draws ps).length ≤ ps.length :=
  collideOuter_length_le sz cd draws _ 0 0 ps

theorem updateParticles_particles (dt : ℚ) (draws : ℕ → ℚ) (s : SimState) :
    (updateParticles dt draws s).particles =
      (collisionPhase s.particleSizeValue s.initialCollide draws
        s.particles).map (moveParticle dt) := rfl

theorem updateParticles_winnerFound (dt : ℚ) (draws : ℕ → ℚ) (s : SimState) :
    (updateParticles dt draws s).winnerFound = s.winnerFound := rfl

theorem updateParticles_backgroundColor (dt : ℚ) (draws : ℕ → ℚ)
    (s : SimState) :
    (updateParticles dt draws s).backgroundColor = s.backgroundColor := rfl

/-- C8: the Particle Store size after a frame update is at most the size
before it: the population never increases after initialization. -/
theorem store_size_monotone (dt : ℚ) (draws : ℕ → ℚ) (s : SimState) :
    (updateParticles dt draws s).particles.length ≤ s.particles.length := by
  rw [updateParticles_particles, List.length_map]
  exact collisionPhase_length_le _ _ _ _

/-- C3: on a colliding pair the resolver consumes one random draw from
`[0,1]`; a draw of exactly `0` removes the second particle of the pair and
any other draw removes the first. -/
theorem elimination_policy (ps : List Particle) (p1 p2 : Particle) (r : ℚ)
    (h0 : 0 ≤ r) (h1 : r ≤ 1) :
    (r = 0 → handleCollision r p1 p2 ps = removeParticle ps p2) ∧
    (r ≠ 0 → handleCollision r p1 p2 ps = removeParticle ps p1) := by
  constructor
  · intro h
    simp [handleCollision, h]
  · intro h
    simp [handleCollision, h]

/-- Witness for C3 at concrete draws `0` and `1/2`. -/
theorem elimination_policy_witness :
    ((0:ℚ) ≤ 0 ∧ (0:ℚ) ≤ 1 ∧
      handleCollision 0 wA cpB [wA, cpB] = removeParticle [wA, cpB] cpB) ∧
    ((0:ℚ) ≤ 1/2 ∧ (1/2:ℚ) ≤ 1 ∧
      handleCollision (1/2) wA cpB [wA, cpB] = removeParticle [wA, cpB] wA) := by
  refine ⟨⟨le_refl 0, by norm_num, ?_⟩, ⟨by norm_num, by norm_num, ?_⟩⟩
  · exact (elimination_policy [wA, cpB] wA cpB 0 (le_refl 0) (by norm_num)).1 rfl
  · exact (elimination_policy [wA, cpB] wA cpB (1/2) (by norm_num)
      (by norm_num)).2 (by norm_num)

/-- C4: removal deletes the first occurrence, in store order, that is
field-equal (position and color) to the target — equality ignores
velocity, acceleration, shape and lifespan — and when such an occurrence
exists the store size decreases by exactly one. -/
theorem removeParticle_first_match (ps : List Particle) (tgt : Particle)
    (l1 : List Particle) (e : Particle) (l2 : List Particle)
    (hps : ps = l1 ++ e :: l2)
    (hl1 : ∀ x ∈ l1, particleEq x tgt = false)
    (he : particleEq e tgt = true) :
    removeParticle ps tgt = l1 ++ l2 ∧
    (removeParticle ps tgt).length + 1 = ps.length ∧
    (∀ a b : Particle,
      particleEq a b = true ↔ a.position = b.position ∧ a.color = b.color) := by
  subst hps
  have he' : (fun q => particleEq q tgt) e = true := he
  have hel : List.eraseP (fun q => particleEq q tgt) (e :: l2) = l2 :=
    List.eraseP_cons_of_pos he'
  have h1 : removeParticle (l1 ++ e :: l2) tgt = l1 ++ l2 := by
    unfold removeParticle
    rw [List.eraseP_append_right _ (fun b hb => by simp [hl1 b hb])]
    rw [hel]
  refine ⟨h1, ?_, ?_⟩
  · rw [h1]
    simp [List.length_append]
    omega
  · intro a b
    simp [particleEq]

/-- Witness for C4: with two field-equal particles differing in velocity
and the second as target, the first occurrence is the one removed. -/
theorem removeParticle_first_match_witness :
    removeParticle [dupA, dupB] dupB = [dupB] ∧
    (removeParticle [dupA, dupB] dupB).length + 1 =
      ([dupA, dupB] : List Particle).length := by
  have h := removeParticle_first_match [dupA, dupB] dupB [] dupA [dupB] rfl
    (by simp) (by decide)
  exact ⟨h.1, h.2.1⟩

/-- C9: a particle sitting exactly on the right wall with positive
x-velocity has negative x-velocity after one integration step (the
reflection happens before the kinematic update); the hypothesis that the
x-acceleration vanishes matches the data model, where every spawned
particle has the constant downward acceleration `(0, -0.05, 0)`. -/
theorem rightWall_reflection (dt : ℚ) (p : Particle)
    (hx : p.position.x = rightWall) (hv : 0 < p.velocity.x)
    (ha : p.acceleration.x = 0) : (moveParticle dt p).velocity.x < 0 := by
  have hcond : p.position.x ≤ leftWall ∨ rightWall ≤ p.position.x :=
    Or.inr (le_of_eq hx.symm)
  simp [moveParticle, kinematics, reflect, Vec3.add, Vec3.smul, hcond, ha]
  linarith

/-- Witness for C9 at a concrete wall-sitting particle. -/
theorem rightWall_reflection_witness :
    wallP.position.x = rightWall ∧ 0 < wallP.velocity.x ∧
    wallP.acceleration.x = 0 ∧ (moveParticle 1 wallP).velocity.x < 0 :=
  ⟨rfl, by norm_num [wallP], rfl,
    rightWall_reflection 1 wallP rfl (by norm_num [wallP]) rfl⟩

/-- C2 counterexample: at `delta = 1` (non-negative) and a particle with
acceleration `(0,1,0)`, the code's velocity update adds twice
`acceleration * delta`, so the claimed update `velocity += acceleration *
delta` does not hold. -/
theorem velocity_update_counterexample :
    (0:ℚ) ≤ 1 ∧
    (kinematics 1 ctrP).velocity ≠
      Vec3.add ctrP.velocity (Vec3.smul 1 ctrP.acceleration) := by
  constructor
  · norm_num
  · norm_num [kinematics, ctrP, Vec3.add, Vec3.smul, Vec3.mk.injEq]

/-- C2 (amended): one kinematic step updates velocity by
`velocity += acceleration * (2 * delta)` and then position by
`position += velocity * delta` with the freshly updated velocity
(velocity-then-position order). -/
theorem velocity_then_position (p : Particle) (dt : ℚ) (h : 0 ≤ dt) :
    (kinematics dt p).velocity =
      Vec3.add p.velocity (Vec3.smul (2 * dt) p.acceleration) ∧
    (kinematics dt p).position =
      Vec3.add p.position (Vec3.smul dt
        (Vec3.add p.velocity (Vec3.smul (2 * dt) p.acceleration))) := by
  refine ⟨?_, ?_⟩ <;>
    simp only [kinematics, Vec3.add, Vec3.smul, Vec3.mk.injEq] <;>
    refine ⟨by ring, by ring, by ring⟩

/-- Witness for C2's amended statement at `delta = 1`. -/
theorem velocity_then_position_witness :
    (0:ℚ) ≤ 1 ∧
    ((kinematics 1 ctrP).velocity =
      Vec3.add ctrP.velocity (Vec3.smul (2 * 1) ctrP.acceleration) ∧
    (kinematics 1 ctrP).position =
      Vec3.add ctrP.position (Vec3.smul 1
        (Vec3.add ctrP.velocity (Vec3.smul (2 * 1) ctrP.acceleration)))) :=
  ⟨by norm_num, velocity_then_position ctrP 1 (by norm_num)⟩

/-- C7: the collision test succeeds exactly when the Euclidean distance
between the two positions is strictly below `particleSize /
collisionDivisor`, and in particular two particles at distance `0.01`
with `particleSize = 10` and `collisionDivisor = 100` collide. -/
theorem checkCollision_euclidean :
    (∀ (sz cd : ℚ) (p1 p2 : Particle), checkCollision sz cd p1 p2 = true ↔
      Real.sqrt ((distSq p1.position p2.position : ℚ) : ℝ) <
        ((sz / cd : ℚ) : ℝ)) ∧
    checkCollision 10 100 wA cpB = true := by
  constructor
  · intro sz cd p1 p2
    simp only [checkCollision, decide_eq_true_eq]
    constructor
    · rintro ⟨hq, hd⟩
      have hq' : (0:ℝ) < ((sz / cd : ℚ) : ℝ) := by exact_mod_cast hq
      rw [Real.sqrt_lt' hq']
      exact_mod_cast hd
    · intro h
      have hq' : (0:ℝ) < ((sz / cd : ℚ) : ℝ) :=
        lt_of_le_of_lt (Real.sqrt_nonneg _) h
      refine ⟨by exact_mod_cast hq', ?_⟩
      have hd := (Real.sqrt_lt' hq').mp h
      exact_mod_cast hd
  · norm_num [checkCollision, distSq, wA, cpB]

theorem updateParticles_vertexData (dt : ℚ) (draws : ℕ → ℚ) (s : SimState) :
    (updateParticles dt draws s).vertexData =
      updateVertexData s.vertexData
        ((collisionPhase s.particleSizeValue s.initialCollide draws
          s.particles).map (moveParticle dt)) := rfl

theorem updateParticles_particleSizeValue (dt : ℚ) (draws : ℕ → ℚ)
    (s : SimState) :
    (updateParticles dt draws s).particleSizeValue =
      (escalate s.numParticles
        ((collisionPhase s.particleSizeValue s.initialCollide draws
          s.particles).map (moveParticle dt)).length
        s.particleSizeValue s.initialCollide).1 := rfl

theorem updateParticles_initialCollide (dt : ℚ) (draws : ℕ → ℚ)
    (s : SimState) :
    (updateParticles dt draws s).initialCollide =
      (escalate s.numParticles
        ((collisionPhase s.particleSizeValue s.initialCollide draws
          s.particles).map (moveParticle dt)).length
        s.particleSizeValue s.initialCollide).2 := rfl

theorem updateParticles_numParticles (dt : ℚ) (draws : ℕ → ℚ)
    (s : SimState) :
    (updateParticles dt draws s).numParticles = s.numParticles := rfl

theorem writeParticle_length (buf : List ℚ) (i : ℕ) (p : Particle) :
    (writeParticle buf i p).length = buf.length := by
  simp [writeParticle]

theorem updateVertexDataFrom_length :
    ∀ (ps : List Particle) (buf : List ℚ) (i : ℕ),
      (updateVertexDataFrom buf i ps).length = buf.length := by
  intro ps
  induction ps with
  | nil => intro buf i; rfl
  | cons p ps ih =>
    intro buf i
    simp only [updateVertexDataFrom]
    rw [ih, writeParticle_length]

theorem updateVertexData_length (buf : List ℚ) (ps : List Particle) :
    (updateVertexData buf ps).length = buf.length :=
  updateVertexDataFrom_length ps buf 0

theorem updateParticles_vertexData_length (dt : ℚ) (draws : ℕ → ℚ)
    (s : SimState) :
    (updateParticles dt draws s).vertexData.length = s.vertexData.length := by
  rw [updateParticles_vertexData, updateVertexData_length]

theorem runUpdates_vertexData_length :
    ∀ (fs : List (ℚ × (ℕ → ℚ))) (s : SimState),
      (runUpdates fs s).vertexData.length = s.vertexData.length := by
  intro fs
  induction fs with
  | nil => intro s; rfl
  | cons f fs ih =>
    intro s
    simp only [runUpdates]
    rw [ih, updateParticles_vertexData_length]

theorem flattenParticles_length :
    ∀ ps : List Particle, (flattenParticles ps).length = 6 * ps.length := by
  intro ps
  induction ps with
  | nil => rfl
  | cons p ps ih =>
    simp only [flattenParticles, List.map_cons, List.flatten_cons,
      List.length_append, List.length_cons]
    simp only [flattenParticles] at ih
    rw [ih]
    simp
    ring

/-- C1 (amended): the flat vertex buffer is never resized, so after every
frame its length still equals `6` times the initial particle count, not
`6` times the current store size. -/
theorem buffer_length_equals_initial (ps : List Particle)
    (fs : List (ℚ × (ℕ → ℚ))) :
    (runUpdates fs (initState ps)).vertexData.length = 6 * ps.length := by
  rw [runUpdates_vertexData_length]
  exact flattenParticles_length ps

/-- Counterexample to C1 as stated: starting from two colliding particles,
one frame update eliminates one particle but leaves the 12-float buffer,
so the buffer length differs from `6 × |Store|`. -/
theorem buffer_length_counterexample :
    (updateParticles 0 (fun _ => 1) (initState [wA, cpB])).vertexData.length ≠
      6 * (updateParticles 0 (fun _ => 1)
        (initState [wA, cpB])).particles.length := by
  have hcol : checkCollision 10 100 wA cpB = true := by
    norm_num [checkCollision, distSq, wA, cpB]
  have hAA : particleEq wA wA = true := by simp [particleEq]
  have hrm : removeParticle [wA, cpB] wA = [cpB] := by
    simp [removeParticle, List.eraseP_cons, hAA]
  have hhc : handleCollision 1 wA cpB [wA, cpB] = [cpB] := by
    unfold handleCollision
    rw [if_neg (by norm_num : ¬(1:ℚ) = 0), hrm]
  have hphase : collisionPhase 10 100 (fun _ => (1:ℚ)) [wA, cpB] = [cpB] := by
    simp [collisionPhase, collideOuter, collideInner, hcol, hhc]
  have hlen : (updateParticles 0 (fun _ => (1:ℚ))
      (initState [wA, cpB])).vertexData.length = 12 := by
    rw [updateParticles_vertexData_length]
    have := flattenParticles_length [wA, cpB]
    simpa [initState] using this
  have hp : (updateParticles 0 (fun _ => (1:ℚ))
      (initState [wA, cpB])).particles.length = 1 := by
    rw [updateParticles_particles]
    simp [initState, hphase]
  rw [hlen, hp]
  norm_num

theorem writeParticle_getD_of_ge (buf : List ℚ) (i : ℕ) (p : Particle)
    (k : ℕ) (h : 6 * i + 6 ≤ k) :
    (writeParticle buf i p).getD k 0 = buf.getD k 0 := by
  simp only [writeParticle, List.getD_eq_getElem?_getD]
  rw [List.getElem?_set_ne (by omega), List.getElem?_set_ne (by omega),
    List.getElem?_set_ne (by omega), List.getElem?_set_ne (by omega),
    List.getElem?_set_ne (by omega), List.getElem?_set_ne (by omega)]

theorem updateVertexDataFrom_getD_of_ge :
    ∀ (ps : List Particle) (buf : List ℚ) (i k : ℕ),
      6 * (i + ps.length) ≤ k →
      (updateVertexDataFrom buf i ps).getD k 0 = buf.getD k 0 := by
  intro ps
  induction ps with
  | nil => intro buf i k _; rfl
  | cons p ps ih =>
    intro buf i k hk
    simp only [updateVertexDataFrom]
    rw [ih (writeParticle buf i p) (i + 1) k (by simp at hk; omega)]
    exact writeParticle_getD_of_ge buf i p k (by simp at hk; omega)

/-- C10: a frame update never changes the flat buffer's length, and every
slot at or past `6 × |Store|` keeps its previous (stale) value; over any
run from initialization the buffer length stays `6` times the initial
particle count. -/
theorem vertexData_never_resized :
    (∀ (dt : ℚ) (draws : ℕ → ℚ) (s : SimState),
      (updateParticles dt draws s).vertexData.length = s.vertexData.length ∧
      ∀ k, 6 * (updateParticles dt draws s).particles.length ≤ k →
        (updateParticles dt draws s).vertexData.getD k 0 =
          s.vertexData.getD k 0) ∧
    (∀ (ps : List Particle) (fs : List (ℚ × (ℕ → ℚ))),
      (runUpdates fs (initState ps)).vertexData.length = 6 * ps.length) := by
  constructor
  · intro dt draws s
    refine ⟨updateParticles_vertexData_length dt draws s, ?_⟩
    intro k hk
    rw [updateParticles_vertexData]
    rw [updateParticles_particles] at hk
    exact updateVertexDataFrom_getD_of_ge _ s.vertexData 0 k (by simpa using hk)
  · intro ps fs
    rw [runUpdates_vertexData_length]
    exact flattenParticles_length ps

/-- Witness for C10's conditional part at the empty store. -/
theorem vertexData_never_resized_witness :
    6 * (updateParticles 0 (fun _ => 1)
        (initState [])).particles.length ≤ 0 ∧
    (updateParticles 0 (fun _ => 1) (initState [])).vertexData.getD 0 0 =
      (initState []).vertexData.getD 0 0 := by
  have hempty : (updateParticles 0 (fun _ => (1:ℚ))
      (initState [])).particles.length = 0 := by
    rw [updateParticles_particles]
    simp [initState, collisionPhase, collideOuter]
  refine ⟨by omega, ?_⟩
  exact (vertexData_never_resized.1 0 (fun _ => 1) (initState [])).2 0
    (by omega)

theorem escalate_particleSize_le (n size : ℕ) (sz cd : ℚ) :
    sz ≤ (escalate n size sz cd).1 := by
  unfold escalate
  split
  · norm_num
  · exact le_refl sz

theorem escalate_initialCollide_le (n size : ℕ) (sz cd : ℚ) :
    cd ≤ (escalate n size sz cd).2 := by
  unfold escalate
  split
  · norm_num
  · exact le_refl cd

theorem updateParticles_length_le (dt : ℚ) (draws : ℕ → ℚ) (s : SimState) :
    (updateParticles dt draws s).particles.length ≤ s.particles.length := by
  rw [updateParticles_particles, List.length_map]
  exact collisionPhase_length_le _ _ _ _

theorem updateParticles_particleSizeValue_le (dt : ℚ) (draws : ℕ → ℚ)
    (s : SimState) :
    s.particleSizeValue ≤ (updateParticles dt draws s).particleSizeValue := by
  rw [updateParticles_particleSizeValue]
  exact escalate_particleSize_le _ _ _ _

theorem updateParticles_initialCollide_le (dt : ℚ) (draws : ℕ → ℚ)
    (s : SimState) :
    s.initialCollide ≤ (updateParticles dt draws s).initialCollide := by
  rw [updateParticles_initialCollide]
  exact escalate_initialCollide_le _ _ _ _

theorem runUpdates_particleSizeValue_le :
    ∀ (fs : List (ℚ × (ℕ → ℚ))) (s : SimState),
      s.particleSizeValue ≤ (runUpdates fs s).particleSizeValue := by
  intro fs
  induction fs with
  | nil => intro s; exact le_refl _
  | cons f fs ih =>
    intro s
    simp only [runUpdates]
    exact le_trans (updateParticles_particleSizeValue_le f.1 f.2 s) (ih _)

theorem runUpdates_initialCollide_le :
    ∀ (fs : List (ℚ × (ℕ → ℚ))) (s : SimState),
      s.initialCollide ≤ (runUpdates fs s).initialCollide := by
  intro fs
  induction fs with
  | nil => intro s; exact le_refl _
  | cons f fs ih =>
    intro s
    simp only [runUpdates]
    exact le_trans (updateParticles_initialCollide_le f.1 f.2 s) (ih _)

/-- C5: whenever the store size is at most `max(initial/10, 5)` (integer
division), the frame update adds the fixed step `0.005` to both
`particleSizeValue` and `initialCollide`; moreover both quantities are
non-decreasing across any sequence of subsequent frames. -/
theorem escalation_monotone (dt : ℚ) (draws : ℕ → ℚ) (s : SimState)
    (fs : List (ℚ × (ℕ → ℚ)))
    (hsize : s.particles.length ≤ max (s.numParticles / 10) 5) :
    ((updateParticles dt draws s).particleSizeValue =
        s.particleSizeValue + 1/200 ∧
      (updateParticles dt draws s).initialCollide =
        s.initialCollide + 1/200) ∧
    (s.particleSizeValue ≤ (runUpdates fs s).particleSizeValue ∧
      s.initialCollide ≤ (runUpdates fs s).initialCollide) := by
  have hlen2 : ((collisionPhase s.particleSizeValue s.initialCollide draws
      s.particles).map (moveParticle dt)).length ≤ s.particles.length := by
    rw [List.length_map]
    exact collisionPhase_length_le _ _ _ _
  have hcond : ((collisionPhase s.particleSizeValue s.initialCollide draws
      s.particles).map (moveParticle dt)).length ≤ s.numParticles / 10 ∨
      ((collisionPhase s.particleSizeValue s.initialCollide draws
        s.particles).map (moveParticle dt)).length ≤ 5 :=
    le_max_iff.mp (le_trans hlen2 hsize)
  refine ⟨⟨?_, ?_⟩, runUpdates_particleSizeValue_le fs s,
    runUpdates_initialCollide_le fs s⟩
  · rw [updateParticles_particleSizeValue]
    unfold escalate
    rw [if_pos hcond]
  · rw [updateParticles_initialCollide]
    unfold escalate
    rw [if_pos hcond]

/-- Witness for C5 on a one-particle store. -/
theorem escalation_monotone_witness :
    (initState [wA]).particles.length ≤
      max ((initState [wA]).numParticles / 10) 5 ∧
    ((updateParticles 1 (fun _ => 1)
        (initState [wA])).particleSizeValue =
      (initState [wA]).particleSizeValue + 1/200 ∧
    (updateParticles 1 (fun _ => 1) (initState [wA])).initialCollide =
      (initState [wA]).initialCollide + 1/200) :=
  ⟨by decide,
    (escalation_monotone 1 (fun _ => 1) (initState [wA]) [] (by decide)).1⟩

theorem moveParticle_color (dt : ℚ) (p : Particle) :
    (moveParticle dt p).color = p.color := rfl

theorem collisionPhase_singleton (sz cd : ℚ) (d : ℕ → ℚ) (p : Particle) :
    collisionPhase sz cd d [p] = [p] := by
  simp [collisionPhase, collideOuter, collideInner]

theorem updateParticles_single (dt : ℚ) (d : ℕ → ℚ) (s : SimState)
    (p : Particle) (h : s.particles = [p]) :
    (updateParticles dt d s).particles = [moveParticle dt p] := by
  rw [updateParticles_particles, h, collisionPhase_singleton]
  rfl

theorem winCheck_snd (s : SimState) (h : s.particles.length = 1) :
    (winCheck s).2 = !s.winnerFound := by
  simp [winCheck, h]

theorem winCheck_fst_particles (s : SimState) :
    (winCheck s).1.particles = s.particles := by
  unfold winCheck
  split
  · rfl
  · rfl

theorem winCheck_fst_winnerFound (s : SimState)
    (h : s.particles.length = 1) : (winCheck s).1.winnerFound = true := by
  simp [winCheck, h]

theorem winCheck_fst_backgroundColor (s : SimState)
    (h : s.particles.length = 1) :
    (winCheck s).1.backgroundColor =
      ⟨(s.particles.getLastD default).color.x,
       (s.particles.getLastD default).color.y,
       (s.particles.getLastD default).color.z, 1⟩ := by
  simp [winCheck, h]

theorem runFrames_latched :
    ∀ (fs : List (ℚ × (ℕ → ℚ))) (s : SimState) (c : Vec3),
      (∃ p : Particle, s.particles = [p] ∧ p.color = c) →
      s.winnerFound = true →
      s.backgroundColor = ⟨c.x, c.y, c.z, 1⟩ →
      (runFrames fs s).2 = 0 ∧
      (runFrames fs s).1.winnerFound = true ∧
      (runFrames fs s).1.backgroundColor = ⟨c.x, c.y, c.z, 1⟩ := by
  intro fs
  induction fs with
  | nil =>
    intro s c _ hw hb
    exact ⟨rfl, hw, hb⟩
  | cons f fs ih =>
    intro s c h hw hb
    obtain ⟨p, hp, hc⟩ := h
    have h1 : (updateParticles f.1 f.2 s).particles = [moveParticle f.1 p] :=
      updateParticles_single f.1 f.2 s p hp
    have hlen1 : (updateParticles f.1 f.2 s).particles.length = 1 := by
      rw [h1]
      rfl
    have hw1 : (updateParticles f.1 f.2 s).winnerFound = true := by
      rw [updateParticles_winnerFound]
      exact hw
    have hemit : (frameStep f s).2 = false := by
      unfold frameStep
      rw [winCheck_snd _ hlen1, hw1]
      rfl
    have hfp : (frameStep f s).1.particles = [moveParticle f.1 p] := by
      unfold frameStep
      rw [winCheck_fst_particles, h1]
    have hfw : (frameStep f s).1.winnerFound = true := by
      unfold frameStep
      exact winCheck_fst_winnerFound _ hlen1
    have hlast : ∀ q : Particle, ([q] : List Particle).getLastD default = q :=
      fun q => rfl
    have hfb : (frameStep f s).1.backgroundColor = ⟨c.x, c.y, c.z, 1⟩ := by
      unfold frameStep
      rw [winCheck_fst_backgroundColor _ hlen1, h1, hlast,
        moveParticle_color, hc]
    have hrec := ih (frameStep f s).1 c
      ⟨moveParticle f.1 p, hfp, by rw [moveParticle_color, hc]⟩ hfw hfb
    refine ⟨?_, ?_, ?_⟩
    · simp only [runFrames]
      rw [hemit, hrec.1]
      decide
    · simp only [runFrames]
      exact hrec.2.1
    · simp only [runFrames]
      exact hrec.2.2

/-- C6: from any state where the store holds exactly one particle and the
`winnerFound` latch is still unset, an arbitrary nonempty run of frames
emits the textual winner report exactly once, leaves the latch set, and
leaves `backgroundColor` equal to the sole survivor's color at full
opacity. -/
theorem win_latch (fs : List (ℚ × (ℕ → ℚ))) (s : SimState)
    (h1 : s.particles.length = 1) (h2 : s.winnerFound = false)
    (h3 : fs ≠ []) :
    (runFrames fs s).2 = 1 ∧
    (runFrames fs s).1.winnerFound = true ∧
    (runFrames fs s).1.backgroundColor =
      ⟨(survivorColor s).x, (survivorColor s).y, (survivorColor s).z, 1⟩ := by
  obtain ⟨p, hp⟩ := List.length_eq_one.mp h1
  have hsc : survivorColor s = p.color := by
    simp [survivorColor, hp]
  obtain ⟨f, fs', rfl⟩ := List.exists_cons_of_ne_nil h3
  have hp1 : (updateParticles f.1 f.2 s).particles = [moveParticle f.1 p] :=
    updateParticles_single f.1 f.2 s p hp
  have hlen1 : (updateParticles f.1 f.2 s).particles.length = 1 := by
    rw [hp1]
    rfl
  have hw1 : (updateParticles f.1 f.2 s).winnerFound = false := by
    rw [updateParticles_winnerFound]
    exact h2
  have hemit : (frameStep f s).2 = true := by
    unfold frameStep
    rw [winCheck_snd _ hlen1, hw1]
    rfl
  have hfp : (frameStep f s).1.particles = [moveParticle f.1 p] := by
    unfold frameStep
    rw [winCheck_fst_particles, hp1]
  have hfw : (frameStep f s).1.winnerFound = true := by
    unfold frameStep
    exact winCheck_fst_winnerFound _ hlen1
  have hlast : ∀ q : Particle, ([q] : List Particle).getLastD default = q :=
    fun q => rfl
  have hfb : (frameStep f s).1.backgroundColor =
      ⟨p.color.x, p.color.y, p.color.z, 1⟩ := by
    unfold frameStep
    rw [winCheck_fst_backgroundColor _ hlen1, hp1, hlast, moveParticle_color]
  have hrec := runFrames_latched fs' (frameStep f s).1 p.color
    ⟨moveParticle f.1 p, hfp, moveParticle_color f.1 p⟩ hfw hfb
  rw [hsc]
  refine ⟨?_, ?_, ?_⟩
  · simp only [runFrames]
    rw [hemit, hrec.1]
    decide
  · simp only [runFrames]
    exact hrec.2.1
  · simp only [runFrames]
    exact hrec.2.2

/-- Witness for C6 on a one-particle initial state and one frame. -/
theorem win_latch_witness :
    (initState [wA]).particles.length = 1 ∧
    (initState [wA]).winnerFound = false ∧
    (runFrames [(1, fun _ => 1)] (initState [wA])).2 = 1 ∧
    (runFrames [(1, fun _ => 1)] (initState [wA])).1.winnerFound = true := by
  have h := win_latch [(1, fun _ => 1)] (initState [wA]) rfl rfl (by simp)
  exact ⟨rfl, rfl, h.1, h.2.1⟩

end ParticleSim
